import Mathlib

/-
Verification of the SMC communication core of smc-influxdb (src/smc-influxdb.c).

Shallow embedding conventions:
  - a C byte buffer is a List Nat whose entries are byte values 0..255;
  - the C type char is signed on the target platform, so reading a byte b
    through a char lvalue yields the two's-complement value byteAsChar b;
  - UInt32 arithmetic is Nat/Int arithmetic reduced mod 2^32;
  - C float/double arithmetic on the small exactly-representable values of
    this program is modelled by exact rational arithmetic; where IEEE-754
    special values (infinities, NaN) are essential, the extended type FVal
    models them explicitly;
  - kern_return_t results are Nat, with 0 standing for kIOReturnSuccess;
  - the IOKit kernel call (SMCCall / IOConnectCallStructMethod) is an
    external collaborator, modelled as an oracle function from the call
    index and input structure to a result code and output structure.
-/

/-- Value of a byte read through a C signed char: two's-complement in [-128, 127]. -/
def byteAsChar (b : Nat) : Int :=
  if b < 128 then (b : Int) else (b : Int) - 256

-- kernel call command constants from the source header block
def KERNEL_INDEX_SMC : Nat := 2
def SMC_CMD_READ_BYTES : Nat := 5
def SMC_CMD_READ_KEYINFO : Nat := 9

/-- Embedding of the source function UInt32 _strtoul(char* str, int size, int base).
The buffer is the list str (size = str.length).  The accumulator total is a
UInt32, so each addition is reduced mod 2^32.  In the base-16 branch the
signed char str[i] is shifted left as an int; in the other branch the
already-shifted int is cast to unsigned char, keeping only its low 8 bits. -/
def _strtoul (str : List Nat) (base : Nat) : Nat :=
  (List.range str.length).foldl
    (fun total i =>
      if base = 16 then
        (((total : Int) + byteAsChar (str.getD i 0) * 2 ^ ((str.length - 1 - i) * 8)).emod
            (2 ^ 32)).toNat
      else
        (total +
            ((byteAsChar (str.getD i 0) * 2 ^ ((str.length - 1 - i) * 8)).emod 256).toNat) %
          2 ^ 32)
    0

/-- Embedding of the source function void _ultostr(char* str, UInt32 val):
sprintf("%c%c%c%c", val >> 24, val >> 16, val >> 8, val); the %c conversion
keeps the low 8 bits of each shifted value. -/
def _ultostr (val : Nat) : List Nat :=
  [val / 2 ^ 24 % 256, val / 2 ^ 16 % 256, val / 2 ^ 8 % 256, val % 256]

/-- Embedding of the source function float _strtof(char* str, int size, int e).
For i < size-1 the signed char str[i] is shifted left by (size-1-i)*(8-e);
for i = size-1 the term is (str[i] & 0xff) >> e; afterwards
(str[size-1] & 0x03) * 0.25 is added. -/
def _strtof (str : List Nat) (e : Nat) : ℚ :=
  let size := str.length
  let total : ℚ :=
    (List.range size).foldl
      (fun total i =>
        if i = size - 1 then
          total + ((str.getD i 0 % 256) / 2 ^ e : ℕ)
        else
          total + ((byteAsChar (str.getD i 0) * 2 ^ ((size - 1 - i) * (8 - e)) : ℤ) : ℚ))
      0
  total + ((str.getD (size - 1) 0 % 4 : ℕ) : ℚ) * (1 / 4)

/-- The fixed-point formula exactly as claim C2 states it: every byte except
the last contributes byte << ((size-1-i)*(8-e)) with the byte treated as
UNSIGNED, plus (last & 0xFF) >> e, plus (last & 0x03) * 0.25.  Spec-side
definition, to be compared with the source embedding _strtof. -/
def strtofSpecFormula (str : List Nat) (e : Nat) : ℚ :=
  (((List.range (str.length - 1)).map
        (fun i => ((str.getD i 0 * 2 ^ ((str.length - 1 - i) * (8 - e)) : ℕ) : ℚ))).sum) +
    ((str.getD (str.length - 1) 0 % 256) / 2 ^ e : ℕ) +
    ((str.getD (str.length - 1) 0 % 4 : ℕ) : ℚ) * (1 / 4)

/-- The same closed-form sum with each non-final byte taken as a signed char,
which is what the source actually computes (the amended form of claim C2). -/
def strtofSigned (str : List Nat) (e : Nat) : ℚ :=
  (((List.range (str.length - 1)).map
        (fun i =>
          ((byteAsChar (str.getD i 0) * 2 ^ ((str.length - 1 - i) * (8 - e)) : ℤ) : ℚ))).sum) +
    ((str.getD (str.length - 1) 0 % 256) / 2 ^ e : ℕ) +
    ((str.getD (str.length - 1) 0 % 4 : ℕ) : ℚ) * (1 / 4)

/-- The fan-count decode as the specification states it: the bytes of the
value interpreted as a big-endian unsigned integer over all dataSize bytes.
Spec-side definition, to be compared with the base-10 branch of _strtoul. -/
def bigEndianValue (str : List Nat) : Nat :=
  ((List.range str.length).map (fun i => str.getD i 0 * 2 ^ ((str.length - 1 - i) * 8))).sum

-- the four ASCII bytes of the key TC0P and of the type tag sp78
def tc0pKey : List Nat := [0x54, 0x43, 0x30, 0x50]
def fnumKey : List Nat := [0x46, 0x4E, 0x75, 0x6D]
def sp78Tag : List Nat := [0x73, 0x70, 0x37, 0x38]

/-- Embedding of SMCKeyData_vers_t. -/
structure SMCKeyDataVers where
  major : Nat
  minor : Nat
  build : Nat
  reserved : Nat
  release : Nat
deriving DecidableEq

/-- Embedding of SMCKeyData_pLimitData_t. -/
structure SMCKeyDataPLimitData where
  version : Nat
  length : Nat
  cpuPLimit : Nat
  gpuPLimit : Nat
  memPLimit : Nat
deriving DecidableEq

/-- Embedding of SMCKeyData_keyInfo_t. -/
structure SMCKeyDataKeyInfo where
  dataSize : Nat
  dataType : Nat
  dataAttributes : Nat
deriving DecidableEq

/-- Embedding of the kernel call structure SMCKeyData_t. -/
structure SMCKeyData where
  key : Nat
  vers : SMCKeyDataVers
  pLimitData : SMCKeyDataPLimitData
  keyInfo : SMCKeyDataKeyInfo
  result : Nat
  status : Nat
  data8 : Nat
  data32 : Nat
  bytes : List Nat
deriving DecidableEq

/-- An SMCKeyData_t after memset(..., 0, sizeof(SMCKeyData_t)). -/
def zeroSMCKeyData : SMCKeyData :=
  { key := 0
    vers := { major := 0, minor := 0, build := 0, reserved := 0, release := 0 }
    pLimitData := { version := 0, length := 0, cpuPLimit := 0, gpuPLimit := 0, memPLimit := 0 }
    keyInfo := { dataSize := 0, dataType := 0, dataAttributes := 0 }
    result := 0
    status := 0
    data8 := 0
    data32 := 0
    bytes := List.replicate 32 0 }

/-- Embedding of SMCVal_t. -/
structure SMCVal where
  key : List Nat
  dataSize : Nat
  dataType : List Nat
  bytes : List Nat
deriving DecidableEq

/-- An SMCVal_t after memset(val, 0, sizeof(SMCVal_t)). -/
def zeroSMCVal : SMCVal :=
  { key := List.replicate 5 0
    dataSize := 0
    dataType := List.replicate 5 0
    bytes := List.replicate 32 0 }

/-- The oracle standing for the IOKit service behind SMCCall: it maps the
call index and the input structure to a kern_return code and an output
structure.  The real service is external to the program, so it is a
parameter of every function that calls it. -/
def SMCOracle : Type := Nat → SMCKeyData → Nat × SMCKeyData

/-- The first-phase input structure built by SMCReadKey: zeroed, with the
encoded key and the READ_KEYINFO command byte. -/
def readKeyInfoInput (key : List Nat) : SMCKeyData :=
  { zeroSMCKeyData with key := _strtoul (key.take 4) 16, data8 := SMC_CMD_READ_KEYINFO }

/-- Embedding of kern_return_t SMCReadKey(UInt32Char_t key, SMCVal_t* val).
Besides the result code and the filled-in val, the embedding returns the
list of command bytes it issued to the oracle, so that claims about which
phases were attempted are expressible.  Phase 1 sends READ_KEYINFO; on
success the declared size and decoded type tag are stored in val and phase 2
sends READ_BYTES with that size; on a phase-1 failure the function returns
the failing result at once, with val still in its zeroed state. -/
def SMCReadKey (call : SMCOracle) (key : List Nat) : Nat × SMCVal × List Nat :=
  let inputStructure := readKeyInfoInput key
  let out1 := call KERNEL_INDEX_SMC inputStructure
  if out1.1 ≠ 0 then
    (out1.1, zeroSMCVal, [SMC_CMD_READ_KEYINFO])
  else
    let val : SMCVal :=
      { zeroSMCVal with
          dataSize := out1.2.keyInfo.dataSize
          dataType := _ultostr out1.2.keyInfo.dataType }
    let inputStructure2 :=
      { inputStructure with
          keyInfo := { inputStructure.keyInfo with dataSize := val.dataSize }
          data8 := SMC_CMD_READ_BYTES }
    let out2 := call KERNEL_INDEX_SMC inputStructure2
    if out2.1 ≠ 0 then
      (out2.1, val, [SMC_CMD_READ_KEYINFO, SMC_CMD_READ_BYTES])
    else
      (0, { val with bytes := out2.2.bytes }, [SMC_CMD_READ_KEYINFO, SMC_CMD_READ_BYTES])

/-- Embedding of double getSMCtemp(char* key): read the key; on success with
dataSize > 0 and type tag sp78, return (bytes[0] as signed char * 256 +
bytes[1] as unsigned char) / 256.0; otherwise 0.0. -/
def getSMCtemp (call : SMCOracle) (key : List Nat) : ℚ :=
  let r := SMCReadKey call key
  if r.1 = 0 then
    if 0 < r.2.1.dataSize then
      if r.2.1.dataType = sp78Tag then
        ((byteAsChar (r.2.1.bytes.getD 0 0) * 256 + (r.2.1.bytes.getD 1 0 % 256 : ℕ) : ℤ) : ℚ) /
          256
      else 0
    else 0
  else 0

/-- IEEE-754-style extended value: a finite number (exact rational), the two
infinities, or NaN.  Used where the claims turn on division by zero, which
exact rationals cannot express. -/
inductive FVal where
  | fin : ℚ → FVal
  | pinf : FVal
  | ninf : FVal
  | nan : FVal
deriving DecidableEq

/-- IEEE-style subtraction on extended values. -/
def FVal.sub : FVal → FVal → FVal
  | .fin a, .fin b => .fin (a - b)
  | .fin _, .pinf => .ninf
  | .fin _, .ninf => .pinf
  | .pinf, .fin _ => .pinf
  | .ninf, .fin _ => .ninf
  | .pinf, .ninf => .pinf
  | .ninf, .pinf => .ninf
  | _, _ => .nan

/-- IEEE-style division on extended values: a nonzero finite number divided
by zero gives a signed infinity, 0/0 gives NaN. -/
def FVal.div : FVal → FVal → FVal
  | .fin a, .fin b =>
    if b = 0 then
      if 0 < a then .pinf else if a < 0 then .ninf else .nan
    else .fin (a / b)
  | .fin _, .pinf => .fin 0
  | .fin _, .ninf => .fin 0
  | .pinf, .fin b => if b < 0 then .ninf else .pinf
  | .ninf, .fin b => if b < 0 then .pinf else .ninf
  | _, _ => .nan

/-- IEEE-style multiplication on extended values. -/
def FVal.mul : FVal → FVal → FVal
  | .fin a, .fin b => .fin (a * b)
  | .fin a, .pinf => if 0 < a then .pinf else if a < 0 then .ninf else .nan
  | .fin a, .ninf => if 0 < a then .ninf else if a < 0 then .pinf else .nan
  | .pinf, .fin a => if 0 < a then .pinf else if a < 0 then .ninf else .nan
  | .ninf, .fin a => if 0 < a then .ninf else if a < 0 then .pinf else .nan
  | .pinf, .pinf => .pinf
  | .ninf, .ninf => .pinf
  | .pinf, .ninf => .ninf
  | .ninf, .pinf => .ninf
  | _, _ => .nan

/-- IEEE-style less-than on extended values: comparisons involving NaN are
false. -/
def FVal.ltb : FVal → FVal → Bool
  | .fin a, .fin b => decide (a < b)
  | .fin _, .pinf => true
  | .ninf, .fin _ => true
  | .ninf, .pinf => true
  | _, _ => false

/-- An extended value is finite exactly when it is a number. -/
def FVal.isFinite : FVal → Bool
  | .fin _ => true
  | _ => false

/-- Embedding of the percent computation of influxSMCfans:
float pct = (cur - min) / (max - min); pct *= 100.f; if (pct < 0.f) pct = 0.f;
over IEEE-style extended values (the division has no guard against
max == min). -/
def fanPercent (cur mn mx : FVal) : FVal :=
  let pct := ((cur.sub mn).div (mx.sub mn)).mul (.fin 100)
  if pct.ltb (.fin 0) then .fin 0 else pct

/-- The fan labels the source copies into fanID. -/
inductive FanLabel where
  | main
  | left
  | right
  | other
deriving DecidableEq

/-- Embedding of the switch (i) statement of influxSMCfans: case 0 assigns
Main when nFans == 1 and Left otherwise, case 1 assigns Right, and
case 63 — written as the character literal for the question mark in the
source — assigns Other; any other index matches no case and assigns
nothing. -/
def fanLabel (i nFans : Nat) : Option FanLabel :=
  if i = 0 then some (if nFans = 1 then .main else .left)
  else if i = 1 then some .right
  else if i = 63 then some .other
  else none

/-- For ASCII bytes (below 128) the signed char value is the byte itself. -/
theorem byteAsChar_of_lt {b : Nat} (h : b < 128) : byteAsChar b = b := by
  simp [byteAsChar, h]

/-- C1: decoding the 32-bit value obtained by encoding a 4-character ASCII
key with the base-16 branch of _strtoul back through _ultostr yields the
original four characters. -/
theorem strtoul_ultostr_roundtrip (a b c d : Nat)
    (ha : a < 128) (hb : b < 128) (hc : c < 128) (hd : d < 128) :
    _ultostr (_strtoul [a, b, c, d] 16) = [a, b, c, d] := by
  norm_num [_strtoul, _ultostr, List.range_succ, byteAsChar_of_lt, ha, hb, hc, hd]
  have h1 : ((a : ℤ) * 16777216).emod 4294967296 = (a : ℤ) * 16777216 :=
    Int.emod_eq_of_lt (by omega) (by omega)
  rw [h1]
  have h1' : (a : ℤ) * 16777216 ⊔ 0 = (a : ℤ) * 16777216 := by omega
  rw [h1']
  have h2 : ((a : ℤ) * 16777216 + (b : ℤ) * 65536).emod 4294967296
      = (a : ℤ) * 16777216 + (b : ℤ) * 65536 :=
    Int.emod_eq_of_lt (by omega) (by omega)
  rw [h2]
  have h2' : ((a : ℤ) * 16777216 + (b : ℤ) * 65536) ⊔ 0
      = (a : ℤ) * 16777216 + (b : ℤ) * 65536 := by omega
  rw [h2']
  have h3 : ((a : ℤ) * 16777216 + (b : ℤ) * 65536 + (c : ℤ) * 256).emod 4294967296
      = (a : ℤ) * 16777216 + (b : ℤ) * 65536 + (c : ℤ) * 256 :=
    Int.emod_eq_of_lt (by omega) (by omega)
  rw [h3]
  have h3' : ((a : ℤ) * 16777216 + (b : ℤ) * 65536 + (c : ℤ) * 256) ⊔ 0
      = (a : ℤ) * 16777216 + (b : ℤ) * 65536 + (c : ℤ) * 256 := by omega
  rw [h3']
  have h4 : ((a : ℤ) * 16777216 + (b : ℤ) * 65536 + (c : ℤ) * 256 + (d : ℤ)).emod 4294967296
      = (a : ℤ) * 16777216 + (b : ℤ) * 65536 + (c : ℤ) * 256 + (d : ℤ) :=
    Int.emod_eq_of_lt (by omega) (by omega)
  rw [h4]
  omega

/-- C1 witness: the round-trip theorem applied to the concrete key TC0P. -/
theorem strtoul_ultostr_roundtrip_witness :
    _ultostr (_strtoul [84, 67, 48, 80] 16) = [84, 67, 48, 80] :=
  strtoul_ultostr_roundtrip 84 67 48 80 (by decide) (by decide) (by decide) (by decide)

/-- C8: encoding the key TC0P through the base-16 branch of _strtoul yields
exactly the big-endian packed 32-bit value 0x54433050. -/
theorem strtoul_TC0P : _strtoul tc0pKey 16 = 0x54433050 := by decide

/-- C3 counterexample: on the bytes [0x0C, 0x80] with size 2 and e = 2 the
fixed-point decoder returns 800, not 12.5 as the claim states. -/
theorem strtof_0C80_not_12_5 : _strtof [0x0C, 0x80] 2 ≠ 25 / 2 := by
  norm_num [_strtof, List.range_succ, byteAsChar]

/-- C3 (amended): _strtof with size 2 and e = 2 on the bytes [0x0C, 0x80]
returns exactly 800, the fpe2 value 0x0C80 divided by 4; the byte pattern
that decodes to 12.5 is [0x00, 0x32]. -/
theorem strtof_0C80_eq_800 :
    _strtof [0x0C, 0x80] 2 = 800 ∧ _strtof [0x00, 0x32] 2 = 25 / 2 := by
  constructor <;> norm_num [_strtof, List.range_succ, byteAsChar]

/-- C7: the base-10 branch of _strtoul casts each already-shifted byte to
unsigned char, keeping only its low 8 bits, so every byte except the last
contributes 0.  On a two-byte FNum value [0x01, 0x00] the code computes fan
count 0, while the big-endian interpretation stated by the claim gives 256;
a count of 0 makes the fan loop index range empty. -/
theorem strtoul_base10_drops_high_bytes :
    _strtoul [1, 0] 10 = 0 ∧ bigEndianValue [1, 0] = 256 ∧
      List.range (_strtoul [1, 0] 10) = [] := by decide

/-- C9 counterexample: fan index 63 — the ASCII code of the question mark —
is at least 2, yet the switch assigns it the label Other, so it is not true
that every index at least 2 is left without a label. -/
theorem fanLabel_63_assigns_other :
    fanLabel 63 2 = some FanLabel.other ∧ fanLabel 63 2 ≠ none := by decide

/-- C9 (amended): fan 0 is labeled Main when the fan count is 1 and Left
otherwise, fan 1 is labeled Right, every fan index at least 2 other than 63
is assigned no label by the switch, and index 63 is assigned Other. -/
theorem fanLabel_cases :
    (∀ n, n = 1 → fanLabel 0 n = some FanLabel.main) ∧
    (∀ n, n ≠ 1 → fanLabel 0 n = some FanLabel.left) ∧
    (∀ n, fanLabel 1 n = some FanLabel.right) ∧
    (∀ n i, 2 ≤ i → i ≠ 63 → fanLabel i n = none) ∧
    (∀ n, fanLabel 63 n = some FanLabel.other) := by
  refine ⟨?_, ?_, ?_, ?_, ?_⟩
  · intro n h
    simp [fanLabel, h]
  · intro n h
    simp [fanLabel, h]
  · intro n
    simp [fanLabel]
  · intro n i h2 h63
    unfold fanLabel
    rw [if_neg (by omega), if_neg (by omega), if_neg h63]
  · intro n
    simp [fanLabel]

/-- C9 witness: the amended labeling theorem applied at concrete indices. -/
theorem fanLabel_cases_witness :
    fanLabel 0 1 = some FanLabel.main ∧ fanLabel 0 2 = some FanLabel.left ∧
      fanLabel 1 2 = some FanLabel.right ∧ fanLabel 7 2 = none :=
  ⟨fanLabel_cases.1 1 rfl, fanLabel_cases.2.1 2 (by decide), fanLabel_cases.2.2.1 2,
    fanLabel_cases.2.2.2.1 2 7 (by decide) (by decide)⟩

/-- A left fold that only ever adds a function of the element is the sum of
that function over the list. -/
theorem foldl_add_of_mem {α : Type} (F : ℚ → α → ℚ) (g : α → ℚ)
    (l : List α) (h : ∀ i ∈ l, ∀ t, F t i = t + g i) :
    ∀ init : ℚ, l.foldl F init = init + (l.map g).sum := by
  induction l with
  | nil => intro init; simp
  | cons a l ih =>
    intro init
    simp only [List.foldl_cons, List.map_cons, List.sum_cons]
    rw [h a (List.mem_cons_self a l) init,
      ih (fun i hi t => h i (List.mem_cons_of_mem a hi) t)]
    ring

/-- C2 counterexample: on the buffer [0x80, 0x00] with e = 2 the code
computes -8192, because byte 0x80 is read through a signed char, while the
formula of the claim, treating every non-final byte as unsigned,
gives 8192. -/
theorem strtof_unsigned_counterexample :
    _strtof [0x80, 0x00] 2 = -8192 ∧ strtofSpecFormula [0x80, 0x00] 2 = 8192 ∧
      _strtof [0x80, 0x00] 2 ≠ strtofSpecFormula [0x80, 0x00] 2 := by
  refine ⟨?_, ?_, ?_⟩ <;> norm_num [_strtof, strtofSpecFormula, List.range_succ, byteAsChar]

/-- C2 (amended): for every nonempty byte buffer and every fractional-bit
count e, _strtof returns the sum over all bytes except the last of
byte * 2 ^ ((size-1-i)*(8-e)) with each such byte taken as a SIGNED char,
plus (lastByte mod 256) shifted right by e, plus (lastByte mod 4) * 0.25. -/
theorem strtof_eq_strtofSigned (str : List Nat) (e : Nat) (h : str ≠ []) :
    _strtof str e = strtofSigned str e := by
  obtain ⟨n, hn⟩ : ∃ n, str.length = n + 1 :=
    ⟨str.length - 1, (Nat.succ_pred_eq_of_pos (List.length_pos.mpr h)).symm⟩
  unfold _strtof strtofSigned
  rw [hn]
  simp only [Nat.add_sub_cancel]
  rw [List.range_succ, List.foldl_append, List.foldl_cons, List.foldl_nil]
  rw [if_pos rfl]
  rw [foldl_add_of_mem _
    (fun i => ((byteAsChar (str.getD i 0) * 2 ^ ((n - i) * (8 - e)) : ℤ) : ℚ))
    (List.range n)
    (fun i hi t => by rw [if_neg (Nat.ne_of_lt (List.mem_range.mp hi))]) 0]
  ring

/-- C2 witness: the amended fixed-point theorem applied to the buffer
[0x0C, 0x80] with e = 2. -/
theorem strtof_eq_strtofSigned_witness :
    _strtof [0x0C, 0x80] 2 = strtofSigned [0x0C, 0x80] 2 :=
  strtof_eq_strtofSigned [0x0C, 0x80] 2 (by decide)

/-- C6: whenever the first-phase kernel call of SMCReadKey returns a
non-success result, SMCReadKey returns that result with the value still in
its zeroed state and the only command issued is READ_KEYINFO — the
READ_BYTES phase is never attempted. -/
theorem SMCReadKey_phase1_failure (call : SMCOracle) (key : List Nat)
    (h : (call KERNEL_INDEX_SMC (readKeyInfoInput key)).1 ≠ 0) :
    SMCReadKey call key =
      ((call KERNEL_INDEX_SMC (readKeyInfoInput key)).1, zeroSMCVal,
        [SMC_CMD_READ_KEYINFO]) := by
  simp only [SMCReadKey]
  rw [if_pos h]

/-- C6 witness: the phase-1 failure theorem applied to an oracle that fails
every call with result 1 and to the key FNum. -/
theorem SMCReadKey_phase1_failure_witness :
    SMCReadKey (fun _ _ => (1, zeroSMCKeyData)) fnumKey =
      (1, zeroSMCVal, [SMC_CMD_READ_KEYINFO]) :=
  SMCReadKey_phase1_failure (fun _ _ => (1, zeroSMCKeyData)) fnumKey (by decide)

/-- A kernel oracle answering the key-info phase with an sp78 two-byte type
description and the read-bytes phase with the bytes b0, b1. -/
def sp78Oracle (b0 b1 : Nat) : SMCOracle := fun _ inp =>
  if inp.data8 = SMC_CMD_READ_KEYINFO then
    (0, { zeroSMCKeyData with
            keyInfo := { dataSize := 2, dataType := 0x73703738, dataAttributes := 0 } })
  else
    (0, { zeroSMCKeyData with bytes := b0 :: b1 :: List.replicate 30 0 })

/-- C4: for a successful read whose type tag is sp78, getSMCtemp computes
(byte 0 as a signed char times 256 plus byte 1 as an unsigned char)
divided by 256; in particular bytes [0x2C, 0x00] decode to 44 and bytes
[0xFF, 0x00] decode to -1. -/
theorem getSMCtemp_sp78 :
    (∀ call : SMCOracle, ∀ key : List Nat,
        (SMCReadKey call key).1 = 0 →
        0 < (SMCReadKey call key).2.1.dataSize →
        (SMCReadKey call key).2.1.dataType = sp78Tag →
        getSMCtemp call key =
          ((byteAsChar ((SMCReadKey call key).2.1.bytes.getD 0 0) * 256 +
              ((SMCReadKey call key).2.1.bytes.getD 1 0 % 256 : ℕ) : ℤ) : ℚ) / 256) ∧
      getSMCtemp (sp78Oracle 0x2C 0x00) tc0pKey = 44 ∧
      getSMCtemp (sp78Oracle 0xFF 0x00) tc0pKey = -1 := by
  refine ⟨?_, ?_, ?_⟩
  · intro call key h1 h2 h3
    simp only [getSMCtemp]
    rw [if_pos h1, if_pos h2, if_pos h3]
  · norm_num [getSMCtemp, SMCReadKey, sp78Oracle, readKeyInfoInput, zeroSMCKeyData,
      zeroSMCVal, _ultostr, sp78Tag, byteAsChar, SMC_CMD_READ_BYTES, SMC_CMD_READ_KEYINFO]
  · norm_num [getSMCtemp, SMCReadKey, sp78Oracle, readKeyInfoInput, zeroSMCKeyData,
      zeroSMCVal, _ultostr, sp78Tag, byteAsChar, SMC_CMD_READ_BYTES, SMC_CMD_READ_KEYINFO]

/-- C4 witness: the sp78 decode theorem applied to a concrete oracle
returning the bytes [0x2C, 0x00] for the key TC0P. -/
theorem getSMCtemp_sp78_witness :
    getSMCtemp (sp78Oracle 0x2C 0x00) tc0pKey =
      ((byteAsChar ((SMCReadKey (sp78Oracle 0x2C 0x00) tc0pKey).2.1.bytes.getD 0 0) * 256 +
          ((SMCReadKey (sp78Oracle 0x2C 0x00) tc0pKey).2.1.bytes.getD 1 0 % 256 : ℕ) : ℤ) :
        ℚ) / 256 :=
  getSMCtemp_sp78.1 (sp78Oracle 0x2C 0x00) tc0pKey (by decide) (by decide) (by decide)

/-- With a nonzero divisor the percent computation stays finite and equals
the clamped formula. -/
theorem fanPercent_fin (cur mn mx : ℚ) (h : mx - mn ≠ 0) :
    fanPercent (.fin cur) (.fin mn) (.fin mx) =
      .fin (if (cur - mn) / (mx - mn) * 100 < 0 then 0
            else (cur - mn) / (mx - mn) * 100) := by
  simp only [fanPercent, FVal.sub, FVal.div, if_neg h, FVal.mul, FVal.ltb,
    decide_eq_true_eq]
  split_ifs <;> rfl

/-- With max equal to min and current above min, the division by zero gives
positive infinity, which the low clamp keeps. -/
theorem fanPercent_sub_zero_pos (cur mn mx : ℚ) (h : mx - mn = 0) (hc : 0 < cur - mn) :
    fanPercent (.fin cur) (.fin mn) (.fin mx) = .pinf := by
  simp only [fanPercent, FVal.sub, FVal.div, if_pos h, if_pos hc]
  norm_num [FVal.mul, FVal.ltb]

/-- With max equal to min and current below min, the division by zero gives
negative infinity, which the low clamp maps to a finite zero. -/
theorem fanPercent_sub_zero_neg (cur mn mx : ℚ) (h : mx - mn = 0) (hc : cur - mn < 0) :
    fanPercent (.fin cur) (.fin mn) (.fin mx) = .fin 0 := by
  simp only [fanPercent, FVal.sub, FVal.div, if_pos h,
    if_neg (by linarith : ¬ (0 : ℚ) < cur - mn), if_pos hc]
  norm_num [FVal.mul, FVal.ltb]

/-- With max, min and current all equal, the computation is 0/0, NaN. -/
theorem fanPercent_sub_zero_zero (cur mn mx : ℚ) (h : mx - mn = 0) (hc : cur - mn = 0) :
    fanPercent (.fin cur) (.fin mn) (.fin mx) = .nan := by
  simp only [fanPercent, FVal.sub, FVal.div, if_pos h,
    if_neg (by linarith : ¬ (0 : ℚ) < cur - mn), if_neg (by linarith : ¬ cur - mn < 0)]
  norm_num [FVal.mul, FVal.ltb]

/-- C5 counterexample: with current 500 below min 1000 but max 800 below
min, the computed percent is 250, not the 0 the claim promises for every
current below min. -/
theorem fanPercent_below_min_counterexample :
    fanPercent (.fin 500) (.fin 1000) (.fin 800) = .fin 250 ∧
      fanPercent (.fin 500) (.fin 1000) (.fin 800) ≠ .fin 0 := by
  constructor <;> norm_num [fanPercent, FVal.sub, FVal.div, FVal.mul, FVal.ltb]

/-- C5 (amended): whenever max differs from min the computed percent equals
(current - min) / (max - min) * 100 clamped below at 0 with no upper clamp;
current 3000, min 1000, max 5000 give exactly 50; current 6000 above max
gives 125, beyond 100; a current below min yields 0 provided min is below
max; and a computed finite percent is never negative. -/
theorem fanPercent_spec :
    (∀ cur mn mx : ℚ, mx ≠ mn →
        fanPercent (.fin cur) (.fin mn) (.fin mx) =
          .fin (if (cur - mn) / (mx - mn) * 100 < 0 then 0
                else (cur - mn) / (mx - mn) * 100)) ∧
      fanPercent (.fin 3000) (.fin 1000) (.fin 5000) = .fin 50 ∧
      fanPercent (.fin 6000) (.fin 1000) (.fin 5000) = .fin 125 ∧
      (∀ cur mn mx : ℚ, cur < mn → mn < mx →
        fanPercent (.fin cur) (.fin mn) (.fin mx) = .fin 0) ∧
      (∀ cur mn mx q : ℚ, fanPercent (.fin cur) (.fin mn) (.fin mx) = .fin q → 0 ≤ q) := by
  refine ⟨?_, ?_, ?_, ?_, ?_⟩
  · intro cur mn mx h
    exact fanPercent_fin cur mn mx (sub_ne_zero.mpr h)
  · norm_num [fanPercent, FVal.sub, FVal.div, FVal.mul, FVal.ltb]
  · norm_num [fanPercent, FVal.sub, FVal.div, FVal.mul, FVal.ltb]
  · intro cur mn mx hc hm
    rw [fanPercent_fin cur mn mx (by linarith)]
    have hneg : (cur - mn) / (mx - mn) * 100 < 0 :=
      mul_neg_of_neg_of_pos (div_neg_of_neg_of_pos (by linarith) (by linarith)) (by norm_num)
    rw [if_pos hneg]
  · intro cur mn mx q hq
    by_cases h : mx - mn = 0
    · rcases lt_trichotomy (cur - mn) 0 with hlt | heq | hgt
      · rw [fanPercent_sub_zero_neg cur mn mx h hlt, FVal.fin.injEq] at hq
        linarith
      · rw [fanPercent_sub_zero_zero cur mn mx h heq] at hq
        simp at hq
      · rw [fanPercent_sub_zero_pos cur mn mx h hgt] at hq
        simp at hq
    · rw [fanPercent_fin cur mn mx h, FVal.fin.injEq] at hq
      split_ifs at hq with hs
      · linarith
      · linarith [not_lt.mp hs]

/-- C5 witness: the amended percent theorem applied with current 100 below
min 1000 and max 5000 above min. -/
theorem fanPercent_spec_witness :
    fanPercent (.fin 100) (.fin 1000) (.fin 5000) = .fin 0 :=
  fanPercent_spec.2.2.2.1 100 1000 5000 (by norm_num) (by norm_num)

/-- C10 counterexample: with current 500 and min and max both 1000 the
division by zero produces negative infinity, which the low clamp turns into
the finite value 0 — so the computed percent IS a finite number there. -/
theorem fanPercent_div_zero_finite :
    fanPercent (.fin 500) (.fin 1000) (.fin 1000) = .fin 0 ∧
      (fanPercent (.fin 500) (.fin 1000) (.fin 1000)).isFinite = true := by
  constructor <;>
    norm_num [fanPercent, FVal.sub, FVal.div, FVal.mul, FVal.ltb, FVal.isFinite]

/-- C10 (amended): for nonnegative readings with max equal to min, the
unguarded division by zero is reached — the divisor max - min is exactly
zero — and the computed percent is positive infinity when current is above
min, NaN when current equals min, and finite 0 when current is below min,
because the low clamp maps negative infinity to 0. -/
theorem fanPercent_max_eq_min (cur mn : ℚ) (hc : 0 ≤ cur) (hm : 0 ≤ mn) :
    (FVal.fin mn).sub (.fin mn) = .fin 0 ∧
    fanPercent (.fin cur) (.fin mn) (.fin mn) =
      (if mn < cur then .pinf else if cur = mn then .nan else .fin 0) := by
  refine ⟨by simp [FVal.sub], ?_⟩
  rcases lt_trichotomy cur mn with hlt | heq | hgt
  · rw [fanPercent_sub_zero_neg cur mn mn (sub_self mn) (by linarith),
      if_neg (by linarith), if_neg (by linarith)]
  · rw [fanPercent_sub_zero_zero cur mn mn (sub_self mn) (by linarith),
      if_neg (by linarith), if_pos heq]
  · rw [fanPercent_sub_zero_pos cur mn mn (sub_self mn) (by linarith), if_pos hgt]

/-- C10 witness: the division-by-zero theorem applied with current 2000 and
min and max both 1000. -/
theorem fanPercent_max_eq_min_witness :
    (FVal.fin 1000).sub (.fin 1000) = .fin 0 ∧
    fanPercent (.fin 2000) (.fin 1000) (.fin 1000) =
      (if (1000 : ℚ) < 2000 then .pinf else if (2000 : ℚ) = 1000 then .nan else .fin 0) :=
  fanPercent_max_eq_min 2000 1000 (by norm_num) (by norm_num)
